import Mathlib

/-!
# ora.js: layer model, loader and compositor

A shallow embedding of `src/ora.js` (an OpenRaster reader for the browser) and the
properties of its layer parsing, loading protocol, layer insertion and compositing.

Conventions of the embedding:

* JavaScript values that the code stores in fields are `JSVal`; the numbers the code
  itself produces are the literals `0` and `1` and the pixel sizes of decoded images,
  so numbers are integers.
* The zip archive, the XML parser, the PNG decoder, the 2D canvas and the blending
  module `obj.ora.blending` are external to `ora.js`.  The archive is a table from
  paths to decoded images plus the parsed `stack.xml`; the canvas is the list of calls
  made on it; the blending module is its property table.
* Asynchronous callbacks are explicit pending tasks; a schedule picks which pending
  task completes next.
-/

namespace Ora

/-! ## JavaScript values -/

/-- The JavaScript values that occur in the fields of layers and documents. -/
inductive JSVal where
  | undefined : JSVal
  | null : JSVal
  | num (n : Int) : JSVal
  | str (s : String) : JSVal
  deriving DecidableEq, Repr

/-- JavaScript truthiness (`ToBoolean`): `undefined`, `null`, `0` and `''` are falsy. -/
def JSVal.truthy : JSVal → Bool
  | .undefined => false
  | .null => false
  | .num n => n != 0
  | .str s => s != ""

/-- The JavaScript operator `a || b`. -/
def jsOr (a b : JSVal) : JSVal :=
  if a.truthy then a else b

/-- A decoded image (`HTMLImageElement`): the archive path it was decoded from and its
pixel size. -/
structure Image where
  src : String
  width : Nat
  height : Nat
  deriving DecidableEq, Repr

/-! ## Layer and OraFile -/

/-- The fields of a `Layer` object; `image` is absent until the raster is decoded. -/
structure Layer where
  name : JSVal
  width : JSVal
  height : JSVal
  x : JSVal
  y : JSVal
  composite : JSVal
  opacity : JSVal
  visibility : JSVal
  image : Option Image
  deriving DecidableEq, Repr

/-- The constructor `function Layer(width, height, name)`. -/
def Layer.new (width height name : JSVal) : Layer :=
  { name := name
    width := jsOr width (.num 0)
    height := jsOr height (.num 0)
    x := .num 0
    y := .num 0
    composite := .str "svg:src-over"
    opacity := .num 1
    visibility := .str "visible"
    image := none }

/-- The fields of an `OraFile` object. -/
structure OraFile where
  width : JSVal
  height : JSVal
  layers : List Layer
  thumbnail : Option Image
  prerendered : Option Image
  deriving DecidableEq, Repr

/-- The constructor `function OraFile(width, height)`. -/
def OraFile.new (width height : JSVal) : OraFile :=
  { width := jsOr width (.num 0)
    height := jsOr height (.num 0)
    layers := []
    thumbnail := none
    prerendered := none }

/-! ## addLayer -/

/-- The array method `splice(start, deleteCount, ...items)` for integer arguments:
`start` is taken from the end when negative and clamped to the length, `deleteCount`
is clamped to what remains. -/
def splice {α : Type} (xs : List α) (start deleteCount : Int) (items : List α) : List α :=
  let len : Int := xs.length
  let s : Nat := (if start < 0 then max (len + start) 0 else min start len).toNat
  let d : Nat := (min (max deleteCount 0) (len - s)).toNat
  xs.take s ++ items ++ xs.drop (s + d)

/-- The method `OraFile.prototype.addLayer(name, index)`; `index` is `none` when the
argument is omitted (`undefined`).  Returns the new layer and the updated document. -/
def addLayer (self : OraFile) (name : JSVal) (index : Option Int) : Layer × OraFile :=
  let layer := Layer.new self.width self.height name
  match index with
  | some i =>
    if i < self.layers.length ∧ i ≥ 0 then
      (layer, { self with layers := splice self.layers i 0 [layer] })
    else
      (layer, { self with layers := self.layers ++ [layer] })
  | none => (layer, { self with layers := self.layers ++ [layer] })

/-! ## The archive and the stack descriptor -/

/-- An XML element as the code reads it: its attributes, by name. -/
structure Element where
  attrs : List (String × String)
  deriving DecidableEq, Repr

/-- The DOM method `getAttribute(name)`: the attribute value, or `null` when the
element does not carry the attribute. -/
def Element.getAttribute (e : Element) (name : String) : JSVal :=
  match e.attrs.lookup name with
  | some v => .str v
  | none => .null

/-- The parsed `stack.xml`: the first `image` element and the `layer` elements below
its first `stack` element, in document order. -/
structure StackXml where
  image : Element
  layerElems : List Element
  deriving DecidableEq, Repr

/-- The zip file system after `importBlob`: the decoded PNG entries by path, and the
parsed text of the `stack.xml` entry. -/
structure ZipFS where
  images : List (String × Image)
  stack : StackXml
  deriving DecidableEq, Repr

/-- The lookup `zipfs.find(path)` for an image entry; only a string names an entry. -/
def ZipFS.find (zipfs : ZipFS) (path : JSVal) : Option Image :=
  match path with
  | .str p => zipfs.images.lookup p
  | _ => none

/-! ## The loader -/

/-- The functions passed as `ondone` to `extractImage`; each runs with the decoded image
as `this`.  `onExtract pos` is the closure `onExtract(layer)` for the layer stored at
position `pos` of `that.layers`. -/
inductive ImageCallback where
  | thumbnail : ImageCallback
  | merged : ImageCallback
  | onExtract (pos : Nat) : ImageCallback
  deriving DecidableEq, Repr

/-- An asynchronous operation that has been started and has not called back yet. -/
inductive Task where
  | decode (img : Image) (ondone : ImageCallback) : Task
  | getText : Task
  deriving DecidableEq, Repr

/-- The state of one `load` call: the document `that`, the counters of `loadOra` and
`loadLayers`, the outstanding tasks, and how often `onload` has been called. -/
structure LoadState where
  that : OraFile
  stepsDone : Nat
  steps : Nat
  layersLoaded : Nat
  layerCount : Nat
  pending : List Task
  onloadCalls : Nat
  deriving DecidableEq, Repr

/-- The closure `onDone` of `loadOra`. -/
def onDone (st : LoadState) : LoadState :=
  let st := { st with stepsDone := st.stepsDone + 1 }
  if st.stepsDone = st.steps then
    { st with onloadCalls := st.onloadCalls + 1 }
  else
    st

/-- The function `extractImage(path, zipfs, ondone, onerror)`; `onerror` is either
`onDone` (`true`) or omitted (`false`). -/
def extractImage (path : JSVal) (zipfs : ZipFS) (ondone : ImageCallback) (onerror : Bool)
    (st : LoadState) : LoadState :=
  match zipfs.find path with
  | some imgEntry => { st with pending := st.pending ++ [Task.decode imgEntry ondone] }
  | none => if onerror then onDone st else st

/-- The assignments of the loop body of `loadLayers` to a fresh `new Layer()`. -/
def layerOfElement (layerElement : Element) : Layer :=
  let layer := Layer.new .undefined .undefined .undefined
  { layer with
    name := layerElement.getAttribute "name"
    x := jsOr (layerElement.getAttribute "x") (.num 0)
    y := jsOr (layerElement.getAttribute "y") (.num 0)
    composite := jsOr (layerElement.getAttribute "composite-op") (.str "svg:src-over")
    opacity := jsOr (layerElement.getAttribute "opacity") (.num 1)
    visibility := jsOr (layerElement.getAttribute "visibility") (.str "visible") }

/-- The loop `for (var i = layerCount - 1; i >= 0; i--)` of `loadLayers`; the first
argument is `i + 1`, so the loop ends when it is `0`. -/
def loadLayersLoop (fs : ZipFS) (layerElems : List Element) : Nat → LoadState → LoadState
  | 0, st => st
  | i + 1, st =>
    match layerElems[i]? with
    | none => st
    | some layerElement =>
      let layer := layerOfElement layerElement
      let st := extractImage (layerElement.getAttribute "src") fs
        (.onExtract st.that.layers.length) false st
      loadLayersLoop fs layerElems i
        { st with that := { st.that with layers := st.that.layers ++ [layer] } }

/-- The function `loadLayers(image, ondone)`; `ondone` is `onDone`. -/
def loadLayers (fs : ZipFS) (layerElems : List Element) (st : LoadState) : LoadState :=
  let layerCount := layerElems.length
  let st := { st with
    layersLoaded := 0
    layerCount := layerCount
    that := { st.that with layers := [] } }
  loadLayersLoop fs layerElems layerCount st

/-- The function returned by `onExtract(layer)`, run with the decoded image as `this`;
`pos` is the position of `layer` in `that.layers`. -/
def onExtract (pos : Nat) (this : Image) (st : LoadState) : LoadState :=
  let st := { st with
    that := { st.that with
      layers := st.that.layers.modify
        (fun layer => { layer with
          image := some this
          width := .num this.width
          height := .num this.height }) pos } }
  let st := { st with layersLoaded := st.layersLoaded + 1 }
  if st.layersLoaded = st.layerCount then onDone st else st

/-- The callback that `loadStack` passes to `getText`: reads the size from the `image`
element and calls `loadLayers(img, ondone)`. -/
def onStackText (fs : ZipFS) (st : LoadState) : LoadState :=
  let img := fs.stack.image
  let st := { st with
    that := { st.that with
      width := img.getAttribute "w"
      height := img.getAttribute "h" } }
  loadLayers fs fs.stack.layerElems st

/-- The function `loadOra`, called once the archive is imported: starts the three
extraction tasks. -/
def loadOra (fs : ZipFS) (that : OraFile) : LoadState :=
  let st : LoadState :=
    { that := that, stepsDone := 0, steps := 3, layersLoaded := 0, layerCount := 0,
      pending := [], onloadCalls := 0 }
  let st := extractImage (.str "Thumbnails/thumbnail.png") fs .thumbnail true st
  let st := extractImage (.str "mergedimage.png") fs .merged true st
  { st with pending := st.pending ++ [Task.getText] }

/-- The callback of a task that completes. -/
def runTask (fs : ZipFS) (t : Task) (st : LoadState) : LoadState :=
  match t with
  | .decode img .thumbnail => onDone { st with that := { st.that with thumbnail := some img } }
  | .decode img .merged => onDone { st with that := { st.that with prerendered := some img } }
  | .decode img (.onExtract pos) => onExtract pos img st
  | .getText => onStackText fs st

/-- One turn of the event loop: the pending task number `k` completes and its callback
runs; nothing happens when there is no such task. -/
def fire (fs : ZipFS) (st : LoadState) (k : Nat) : LoadState :=
  match st.pending[k]? with
  | none => st
  | some t => runTask fs t { st with pending := st.pending.eraseIdx k }

/-- The state after the completions chosen by a schedule, in order. -/
def runSchedule (fs : ZipFS) (st : LoadState) (sched : List Nat) : LoadState :=
  sched.foldl (fire fs) st

/-- The function `loadFile(blob, onload)`: a new `OraFile`, loaded from the archive. -/
def loadFile (fs : ZipFS) : LoadState :=
  loadOra fs (OraFile.new .undefined .undefined)

/-! ## The compositor -/

/-- The pixel array returned by `Layer.prototype.getImageData(width, height)`: the
layer image drawn at the layer offset on a temporary canvas of the given size. -/
structure PixelData where
  image : Image
  x : JSVal
  y : JSVal
  width : JSVal
  height : JSVal
  deriving DecidableEq, Repr

/-- The calls that `drawComposite` makes on the 2D context of the canvas, on the pixel
array `imgData` read from it, and on the blending module. -/
inductive CtxCall where
  | clearRect (x y w h : JSVal) : CtxCall
  | drawImage (image : Image) (x y : JSVal) : CtxCall
  | globalAlpha (value : JSVal) : CtxCall
  | getImageData (x y w h : JSVal) : CtxCall
  | blend (src : PixelData) (opacity : JSVal) (filter : Option Nat) : CtxCall
  | putImageData (x y : JSVal) : CtxCall
  deriving DecidableEq, Repr

/-- A canvas element: the values assigned to its `width` and `height`, and the calls
made on it so far. -/
structure Canvas where
  width : JSVal
  height : JSVal
  calls : List CtxCall
  deriving DecidableEq, Repr

/-- Records one call on the canvas. -/
def Canvas.call (canvas : Canvas) (c : CtxCall) : Canvas :=
  { canvas with calls := canvas.calls ++ [c] }

/-- The object `obj.ora.blending`, provided by a separate module: its properties that
hold a function, by name; a function is identified by a number. -/
structure Blending where
  props : List (String × Nat)
  deriving DecidableEq, Repr

/-- The conversion of a value to a property name, as in `blending[value]`. -/
def JSVal.toPropertyKey : JSVal → String
  | .undefined => "undefined"
  | .null => "null"
  | .num n => toString n
  | .str s => s

/-- The property access `blending[key]`; `none` is `undefined`. -/
def Blending.get (blending : Blending) (key : String) : Option Nat :=
  blending.props.lookup key

/-- The settings on `obj.ora` that `drawComposite` reads: the flag `enablePrerendered`
and the optional module `blending`. -/
structure Settings where
  enablePrerendered : Bool
  blending : Option Blending
  deriving DecidableEq, Repr

/-- The method `Layer.prototype.getImageData(width, height)` of a layer with an image. -/
def Layer.getImageData (layer : Layer) (image : Image) (width height : JSVal) : PixelData :=
  { image := image, x := layer.x, y := layer.y, width := width, height := height }

/-- The test `layer.visibility === 'visible' || layer.visibility === undefined`. -/
def Layer.shown (layer : Layer) : Bool :=
  layer.visibility = .str "visible" || layer.visibility = .undefined

/-- The expression `obj.ora.blending[layer.composite] || obj.ora.blending.normal`. -/
def resolveFilter (blending : Blending) (composite : JSVal) : Option Nat :=
  match blending.get composite.toPropertyKey with
  | some f => some f
  | none => blending.get "normal"

/-- The `while (layerCount > layerIdx)` loop of the branch with a blending module.  The
first argument bounds the number of iterations; `drawComposite` passes `layerCount`. -/
def blendLoop (blending : Blending) (self : OraFile) (layerCount : Nat) :
    Nat → Nat → Canvas → Canvas
  | 0, _, canvas => canvas
  | fuel + 1, layerIdx, canvas =>
    if layerCount > layerIdx then
      let canvas :=
        match self.layers[layerIdx]? with
        | some layer =>
          match layer.image with
          | some image =>
            if layer.shown then
              let filter := resolveFilter blending layer.composite
              let src := layer.getImageData image self.width self.height
              canvas.call (.blend src layer.opacity filter)
            else canvas
          | none => canvas
        | none => canvas
      blendLoop blending self layerCount fuel (layerIdx + 1) canvas
    else canvas

/-- The `while (layerCount > layerIdx)` loop of the branch without a blending module.
The first argument bounds the number of iterations; `drawComposite` passes
`layerCount`. -/
def plainLoop (self : OraFile) (layerCount : Nat) : Nat → Nat → Canvas → Canvas
  | 0, _, canvas => canvas
  | fuel + 1, layerIdx, canvas =>
    if layerCount > layerIdx then
      let canvas :=
        match self.layers[layerIdx]? with
        | some layer =>
          match layer.image with
          | some image =>
            if layer.shown then
              let canvas :=
                if layer.opacity = .undefined then canvas.call (.globalAlpha (.num 1))
                else canvas.call (.globalAlpha layer.opacity)
              canvas.call (.drawImage image layer.x layer.y)
            else canvas
          | none => canvas
        | none => canvas
      plainLoop self layerCount fuel (layerIdx + 1) canvas
    else canvas

/-- The method `OraFile.prototype.drawComposite(canvas)`. -/
def drawComposite (ora : Settings) (self : OraFile) (canvas : Canvas) : Canvas :=
  let canvas := { canvas with width := self.width }
  let canvas := { canvas with height := self.height }
  let layerCount := self.layers.length
  let canvas := canvas.call (.clearRect (.num 0) (.num 0) canvas.width canvas.height)
  match ora.enablePrerendered, self.prerendered with
  | true, some prerendered => canvas.call (.drawImage prerendered (.num 0) (.num 0))
  | _, _ =>
    match ora.blending with
    | some blending =>
      let canvas := canvas.call (.getImageData (.num 0) (.num 0) self.width self.height)
      let canvas := blendLoop blending self layerCount layerCount 0 canvas
      canvas.call (.putImageData (.num 0) (.num 0))
    | none => plainLoop self layerCount layerCount 0 canvas

/-! ## What one loop iteration contributes -/

/-- The calls of one iteration of the loop of the blending branch on `layer`. -/
def blendStep (blending : Blending) (self : OraFile) (layer : Layer) : List CtxCall :=
  match layer.image with
  | some image =>
    if layer.shown then
      [.blend (layer.getImageData image self.width self.height) layer.opacity
        (resolveFilter blending layer.composite)]
    else []
  | none => []

/-- The calls of one iteration of the loop of the plain canvas branch on `layer`. -/
def plainStep (layer : Layer) : List CtxCall :=
  match layer.image with
  | some image =>
    if layer.shown then
      [.globalAlpha (if layer.opacity = .undefined then .num 1 else layer.opacity),
        .drawImage image layer.x layer.y]
    else []
  | none => []

/-- The calls of one loop iteration on `layer`, in the branch that the settings select. -/
def layerStep (ora : Settings) (self : OraFile) (layer : Layer) : List CtxCall :=
  match ora.blending with
  | some blending => blendStep blending self layer
  | none => plainStep layer

/-- The condition under which an iteration paints its layer: the layer has an image and
passes the visibility test. -/
def Layer.painted (layer : Layer) : Bool :=
  layer.image.isSome && layer.shown

/-- The calls with which an iteration paints a layer that has the image `image`. -/
def paintCalls (ora : Settings) (self : OraFile) (layer : Layer) (image : Image) :
    List CtxCall :=
  match ora.blending with
  | some blending =>
    [.blend (layer.getImageData image self.width self.height) layer.opacity
      (resolveFilter blending layer.composite)]
  | none =>
    [.globalAlpha (if layer.opacity = .undefined then .num 1 else layer.opacity),
      .drawImage image layer.x layer.y]

/-- The calls around the loop: with a blending module the loop stands between
`getImageData` and `putImageData`, without one it stands alone. -/
def aroundLoop (ora : Settings) (self : OraFile) (inner : List CtxCall) : List CtxCall :=
  match ora.blending with
  | some _ =>
    [.getImageData (.num 0) (.num 0) self.width self.height] ++ inner ++
      [.putImageData (.num 0) (.num 0)]
  | none => inner

/-- The calls of the layer-by-layer path after `clearRect`, for a list of layers. -/
def layerCalls (ora : Settings) (self : OraFile) (layers : List Layer) : List CtxCall :=
  aroundLoop ora self (layers.flatMap (layerStep ora self))

/-- Whether `drawComposite` takes the path that draws the prerendered image. -/
def fastPath (ora : Settings) (self : OraFile) : Bool :=
  ora.enablePrerendered && self.prerendered.isSome

/-- The size of a canvas after `value` is assigned to its `width` or `height`, for the
values whose conversion to a size is covered here: `undefined` and `null` (size 0),
non-negative integers and strings of decimal digits below `2^31`. -/
def canvasSize (value : JSVal) : Option Nat :=
  match value with
  | .undefined => some 0
  | .null => some 0
  | .num n => if 0 ≤ n ∧ n < 2 ^ 31 then some n.toNat else none
  | .str s =>
    let n := s.data.foldl (fun acc c => 10 * acc + (c.toNat - 48)) 0
    if s.data ≠ [] ∧ s.data.all Char.isDigit ∧ n < 2 ^ 31 then some n else none

/-- The calls of one `drawComposite`: `clearRect`, then either the prerendered image
or the layer-by-layer path. -/
def compositeCalls (ora : Settings) (self : OraFile) : List CtxCall :=
  .clearRect (.num 0) (.num 0) self.width self.height ::
    (match ora.enablePrerendered, self.prerendered with
      | true, some prerendered => [.drawImage prerendered (.num 0) (.num 0)]
      | _, _ => layerCalls ora self self.layers)

/-! ## Example archives and documents -/

/-- A decoded 4 x 4 raster for the entry `data/a.png`. -/
def imgA : Image := { src := "data/a.png", width := 4, height := 4 }

/-- A decoded 4 x 4 raster for the entry `data/b.png`. -/
def imgB : Image := { src := "data/b.png", width := 4, height := 4 }

/-- A decoded 4 x 4 raster for the entry `data/c.png`. -/
def imgC : Image := { src := "data/c.png", width := 4, height := 4 }

/-- The element `<layer name="A" src="data/a.png"/>`. -/
def elemA : Element := { attrs := [("name", "A"), ("src", "data/a.png")] }

/-- The element `<layer name="B" src="data/b.png" x="1" y="2" opacity="0.5"/>`. -/
def elemB : Element :=
  { attrs := [("name", "B"), ("src", "data/b.png"), ("x", "1"), ("y", "2"),
      ("opacity", "0.5")] }

/-- The element `<layer name="C" src="data/c.png" visibility="visible"/>`. -/
def elemC : Element :=
  { attrs := [("name", "C"), ("src", "data/c.png"), ("visibility", "visible")] }

/-- An archive whose `stack.xml` lists the layers A, B, C in that order, with all three
rasters present and neither thumbnail nor merged image. -/
def fsABC : ZipFS :=
  { images := [("data/a.png", imgA), ("data/b.png", imgB), ("data/c.png", imgC)]
    stack :=
      { image := { attrs := [("w", "4"), ("h", "4")] }
        layerElems := [elemA, elemB, elemC] } }

/-- The document loaded from `fsABC` once every task has completed. -/
def docABC : OraFile :=
  (runSchedule fsABC (loadFile fsABC) [0, 0, 0, 0]).that

/-- A canvas on which nothing has been done. -/
def blankCanvas : Canvas := { width := .num 300, height := .num 150, calls := [] }

/-- Settings without a blending module and with the prerendered image disabled. -/
def plainSettings : Settings := { enablePrerendered := false, blending := none }

/-- The position at which `addLayer` is to place the new layer in a list of `n`
layers: the index when it is given and `0 <= index < n`, and the end otherwise. -/
def insertPosition (n : Nat) (index : Option Int) : Nat :=
  match index with
  | some i => if 0 ≤ i ∧ i < n then i.toNat else n
  | none => n

/-- A blending module with the modes `normal` and `svg:multiply` besides its function
`blend`. -/
def sampleBlending : Blending :=
  { props := [("normal", 0), ("svg:multiply", 1), ("blend", 9)] }

/-- Settings with the module `sampleBlending` and the prerendered image disabled. -/
def blendSettings : Settings :=
  { enablePrerendered := false, blending := some sampleBlending }

/-- The element `<layer name="H" src="data/a.png" visibility="hidden" opacity="0.5"
composite-op="svg:multiply"/>`. -/
def elemHidden : Element :=
  { attrs := [("name", "H"), ("src", "data/a.png"), ("visibility", "hidden"),
      ("opacity", "0.5"), ("composite-op", "svg:multiply")] }

/-- The layer of `elemHidden` with its raster decoded. -/
def layerHidden : Layer :=
  { layerOfElement elemHidden with image := some imgA, width := .num 4, height := .num 4 }

/-- The element `<layer name="O" src="data/a.png" visibility="other"/>`. -/
def elemOther : Element :=
  { attrs := [("name", "O"), ("src", "data/a.png"), ("visibility", "other")] }

/-- An archive with the single layer `elemOther`, whose raster is present. -/
def fsOther : ZipFS :=
  { images := [("data/a.png", imgA)]
    stack := { image := { attrs := [("w", "4"), ("h", "4")] }, layerElems := [elemOther] } }

/-- The document loaded from `fsOther` once every task has completed. -/
def docOther : OraFile :=
  (runSchedule fsOther (loadFile fsOther) [0, 0]).that

/-- The element `<layer name="U" src="data/a.png" composite-op="bogus"/>`. -/
def elemBogus : Element :=
  { attrs := [("name", "U"), ("src", "data/a.png"), ("composite-op", "bogus")] }

/-- The layer of `elemBogus` with its raster decoded. -/
def layerBogus : Layer :=
  { layerOfElement elemBogus with image := some imgA, width := .num 4, height := .num 4 }

/-- A blending module that binds the name `source-over` to a function other than its
`normal` function. -/
def oddBlending : Blending :=
  { props := [("normal", 0), ("source-over", 1), ("blend", 9)] }

/-- Settings with the module `oddBlending` and the prerendered image disabled. -/
def oddSettings : Settings :=
  { enablePrerendered := false, blending := some oddBlending }

/-- A decoded 2 x 2 raster for the entry `mergedimage.png`. -/
def imgMerged : Image := { src := "mergedimage.png", width := 2, height := 2 }

/-- An archive whose `stack.xml` declares a 1 x 1 image with the layer A, and whose
merged image is 2 x 2. -/
def fsSmall : ZipFS :=
  { images := [("mergedimage.png", imgMerged), ("data/a.png", imgA)]
    stack := { image := { attrs := [("w", "1"), ("h", "1")] }, layerElems := [elemA] } }

/-- The document loaded from `fsSmall` once every task has completed. -/
def docSmall : OraFile :=
  (runSchedule fsSmall (loadFile fsSmall) [0, 0, 0]).that

/-- An archive whose `stack.xml` declares a 2 x 2 image with the layer A, and whose
merged image is 2 x 2. -/
def fsMerged : ZipFS :=
  { images := [("mergedimage.png", imgMerged), ("data/a.png", imgA)]
    stack := { image := { attrs := [("w", "2"), ("h", "2")] }, layerElems := [elemA] } }

/-- The document loaded from `fsMerged` once every task has completed. -/
def docMerged : OraFile :=
  (runSchedule fsMerged (loadFile fsMerged) [0, 0, 0]).that

/-- Settings with the prerendered image enabled, as `obj.ora` is initialised. -/
def defaultSettings : Settings := { enablePrerendered := true, blending := none }

/-! ## Outstanding tasks of a load -/

/-- Whether a task decodes the thumbnail or the merged image. -/
def Task.isAsset : Task → Bool
  | .decode _ .thumbnail => true
  | .decode _ .merged => true
  | _ => false

/-- Whether a task decodes the raster of a layer. -/
def Task.isLayer : Task → Bool
  | .decode _ (.onExtract _) => true
  | _ => false

/-- Whether a task reads the text of `stack.xml`. -/
def Task.isText : Task → Bool
  | .getText => true
  | _ => false

/-- The number of layer elements among `elems` whose `src` names an entry of the
archive. -/
def foundLayers (fs : ZipFS) (elems : List Element) : Nat :=
  elems.countP (fun e => (fs.find (e.getAttribute "src")).isSome)

/-- A load that cannot complete: `onload` has not been called, the thumbnail and the
merged image account for at most two steps, and the layer rasters that are still
outstanding are too few for `layersLoaded` to reach `layerCount`. -/
structure Stuck (st : LoadState) : Prop where
  calls : st.onloadCalls = 0
  steps : st.steps = 3
  assets : st.stepsDone + st.pending.countP Task.isAsset ≤ 2
  text : st.pending.countP Task.isText ≤ 1
  layers : st.pending.countP Task.isLayer = 0 ∨
    (st.pending.countP Task.isText = 0 ∧
      st.layersLoaded + st.pending.countP Task.isLayer < st.layerCount)

/-- A load that completes exactly when its last task does: the three steps are the
thumbnail, the merged image and the layers; the layers count as done once the text of
`stack.xml` has been read and every layer raster has arrived; `onload` has been called
exactly when the three steps are done. -/
structure Progress (st : LoadState) : Prop where
  steps : st.steps = 3
  text : st.pending.countP Task.isText ≤ 1
  beforeText : st.pending.countP Task.isText = 1 → st.pending.countP Task.isLayer = 0
  afterText : st.pending.countP Task.isText = 0 →
    st.layersLoaded + st.pending.countP Task.isLayer = st.layerCount ∧ 0 < st.layerCount
  done : (st.pending.countP Task.isText = 0 ∧ st.pending.countP Task.isLayer = 0 ∧
      st.stepsDone + st.pending.countP Task.isAsset = 3) ∨
    (0 < st.pending.countP Task.isText + st.pending.countP Task.isLayer ∧
      st.stepsDone + st.pending.countP Task.isAsset = 2)
  calls : (st.stepsDone = 3 ∧ st.onloadCalls = 1) ∨ (st.stepsDone < 3 ∧ st.onloadCalls = 0)

/-- A decoded 1 x 1 raster for the entry `Thumbnails/thumbnail.png`. -/
def imgThumb : Image := { src := "Thumbnails/thumbnail.png", width := 1, height := 1 }

/-- An archive whose `stack.xml` has an empty stack, with a thumbnail and a merged
image. -/
def fsEmpty : ZipFS :=
  { images := [("Thumbnails/thumbnail.png", imgThumb), ("mergedimage.png", imgMerged)]
    stack := { image := { attrs := [("w", "2"), ("h", "2")] }, layerElems := [] } }

/-- An archive whose `stack.xml` lists the layers A and B and which holds the raster of
A but no entry `data/b.png`, the raster that B names; neither thumbnail nor merged
image. -/
def fsMissing : ZipFS :=
  { images := [("data/a.png", imgA)]
    stack := { image := { attrs := [("w", "4"), ("h", "4")] },
               layerElems := [elemA, elemB] } }

/-! ## Layer parsing -/

theorem onDone_that (st : LoadState) : (onDone st).that = st.that := by
  unfold onDone
  simp only []
  split <;> rfl

theorem extractImage_that (path : JSVal) (fs : ZipFS) (cb : ImageCallback) (onerror : Bool)
    (st : LoadState) : (extractImage path fs cb onerror st).that = st.that := by
  unfold extractImage
  split
  · rfl
  · split
    · exact onDone_that st
    · rfl

theorem loadLayersLoop_layers (fs : ZipFS) (layerElems : List Element) :
    ∀ (n : Nat) (st : LoadState), n ≤ layerElems.length →
      (loadLayersLoop fs layerElems n st).that.layers =
        st.that.layers ++ ((layerElems.take n).reverse.map layerOfElement) := by
  intro n
  induction n with
  | zero => intro st _; simp [loadLayersLoop]
  | succ i ih =>
    intro st hn
    have hi : i < layerElems.length := hn
    rw [loadLayersLoop, List.getElem?_eq_getElem hi]
    simp only []
    rw [ih _ (Nat.le_of_lt hi), extractImage_that, List.take_succ,
      List.getElem?_eq_getElem hi]
    simp only [Option.toList, List.reverse_append, List.map_append, List.reverse_cons,
      List.reverse_nil, List.map_cons, List.map_nil, List.append_assoc, List.nil_append,
      List.singleton_append, List.cons_append]

theorem loadLayers_layers (fs : ZipFS) (layerElems : List Element) (st : LoadState) :
    (loadLayers fs layerElems st).that.layers = layerElems.reverse.map layerOfElement := by
  unfold loadLayers
  rw [loadLayersLoop_layers fs layerElems _ _ (Nat.le_refl _)]
  simp

/-- C1: after `loadLayers`, the document has exactly one layer per `layer` element and
the layer at position `i` is the one built from the element at position `N - 1 - i` of
the document order, carrying that element's `name` attribute: the stored order is the
reverse of the XML document order.  The same holds when `loadLayers` runs from the
callback that receives the text of `stack.xml`. -/
theorem loadLayers_reverse_order (fs : ZipFS) (layerElems : List Element) (st : LoadState) :
    (loadLayers fs layerElems st).that.layers.length = layerElems.length ∧
    (loadLayers fs layerElems st).that.layers = layerElems.reverse.map layerOfElement ∧
    (onStackText fs st).that.layers = fs.stack.layerElems.reverse.map layerOfElement ∧
    ∀ i, i < layerElems.length →
      ∃ e, layerElems[layerElems.length - 1 - i]? = some e ∧
        (loadLayers fs layerElems st).that.layers[i]? = some (layerOfElement e) ∧
        (layerOfElement e).name = e.getAttribute "name" := by
  rw [loadLayers_layers]
  refine ⟨by simp, rfl, ?_, ?_⟩
  · unfold onStackText
    exact loadLayers_layers fs fs.stack.layerElems _
  intro i hi
  have h2 : layerElems.length - 1 - i < layerElems.length := by omega
  refine ⟨layerElems[layerElems.length - 1 - i], List.getElem?_eq_getElem h2, ?_, rfl⟩
  rw [List.getElem?_map, List.getElem?_reverse hi, List.getElem?_eq_getElem h2]
  rfl

/-- C1 (witness): for the stack listed A, B, C, the three stored layers are those of
C, B, A, and the layer stored first is the one built from the element listed last. -/
theorem loadLayers_reverse_order_witness :
    (loadLayers fsABC [elemA, elemB, elemC] (loadFile fsABC)).that.layers.length = 3 ∧
    (loadLayers fsABC [elemA, elemB, elemC] (loadFile fsABC)).that.layers[0]? =
      some (layerOfElement elemC) ∧
    (layerOfElement elemC).name = .str "C" := by
  obtain ⟨e, h1, h2, h3⟩ :=
    (loadLayers_reverse_order fsABC [elemA, elemB, elemC] (loadFile fsABC)).2.2.2 0
      (by decide)
  have he : e = elemC := by
    have : some elemC = some e := h1
    exact (Option.some.inj this).symm
  subst he
  exact ⟨(loadLayers_reverse_order fsABC [elemA, elemB, elemC] (loadFile fsABC)).1,
    h2, by decide⟩

/-! ## The loops of drawComposite -/

theorem blendLoop_calls (blending : Blending) (self : OraFile) :
    ∀ (fuel layerIdx : Nat) (canvas : Canvas), self.layers.length - layerIdx ≤ fuel →
      blendLoop blending self self.layers.length fuel layerIdx canvas =
        { canvas with calls := canvas.calls ++
            (self.layers.drop layerIdx).flatMap (blendStep blending self) } := by
  intro fuel
  induction fuel with
  | zero =>
    intro layerIdx canvas h
    have : self.layers.length ≤ layerIdx := by omega
    simp [blendLoop, List.drop_eq_nil_of_le this]
  | succ fuel ih =>
    intro layerIdx canvas h
    unfold blendLoop
    by_cases hlt : self.layers.length > layerIdx
    · rw [if_pos hlt, ih _ _ (by omega), List.getElem?_eq_getElem hlt,
        List.drop_eq_getElem_cons hlt]
      simp only [List.flatMap_cons, blendStep, Canvas.call]
      cases self.layers[layerIdx].image with
      | none => simp
      | some image =>
        by_cases hs : self.layers[layerIdx].shown = true <;> simp [hs]
    · have : self.layers.length ≤ layerIdx := by omega
      simp [hlt, List.drop_eq_nil_of_le this]

theorem plainLoop_calls (self : OraFile) :
    ∀ (fuel layerIdx : Nat) (canvas : Canvas), self.layers.length - layerIdx ≤ fuel →
      plainLoop self self.layers.length fuel layerIdx canvas =
        { canvas with calls := canvas.calls ++
            (self.layers.drop layerIdx).flatMap plainStep } := by
  intro fuel
  induction fuel with
  | zero =>
    intro layerIdx canvas h
    have : self.layers.length ≤ layerIdx := by omega
    simp [plainLoop, List.drop_eq_nil_of_le this]
  | succ fuel ih =>
    intro layerIdx canvas h
    unfold plainLoop
    by_cases hlt : self.layers.length > layerIdx
    · rw [if_pos hlt, ih _ _ (by omega), List.getElem?_eq_getElem hlt,
        List.drop_eq_getElem_cons hlt]
      simp only [List.flatMap_cons, plainStep, Canvas.call]
      cases self.layers[layerIdx].image with
      | none => simp
      | some image =>
        by_cases hs : self.layers[layerIdx].shown = true <;>
          by_cases ho : self.layers[layerIdx].opacity = .undefined <;> simp [hs, ho]
    · have : self.layers.length ≤ layerIdx := by omega
      simp [hlt, List.drop_eq_nil_of_le this]

theorem layerStep_none (ora : Settings) (self : OraFile) (hb : ora.blending = none) :
    layerStep ora self = plainStep := by
  funext layer
  simp [layerStep, hb]

theorem layerStep_some (ora : Settings) (self : OraFile) (blending : Blending)
    (hb : ora.blending = some blending) :
    layerStep ora self = blendStep blending self := by
  funext layer
  simp [layerStep, hb]

theorem drawComposite_eq (ora : Settings) (self : OraFile) (canvas : Canvas) :
    drawComposite ora self canvas =
      { width := self.width, height := self.height,
        calls := canvas.calls ++ compositeCalls ora self } := by
  unfold drawComposite compositeCalls
  simp only []
  split
  · simp [Canvas.call]
  · cases hb : ora.blending with
    | none =>
      simp only []
      rw [plainLoop_calls self _ _ _ (by omega)]
      simp [Canvas.call, layerCalls, aroundLoop, layerStep_none ora self hb, hb]
    | some blending =>
      simp only []
      rw [blendLoop_calls blending self _ _ _ (by omega)]
      simp [Canvas.call, layerCalls, aroundLoop, layerStep_some ora self blending hb, hb]

theorem compositeCalls_slow (ora : Settings) (self : OraFile)
    (h : fastPath ora self = false) :
    compositeCalls ora self =
      .clearRect (.num 0) (.num 0) self.width self.height ::
        layerCalls ora self self.layers := by
  unfold compositeCalls
  split
  · rename_i h1 h2
    simp [fastPath, h1, h2] at h
  · rfl

/-! ## Defaults of missing attributes -/

/-- C4 (as amended): a `layer` element without `x`, `y`, `opacity`, `composite-op` or
`visibility` attribute yields the default of that field, which is `0`, `0`, `1`,
the string `svg:src-over` and the string `visible`; each of these fields depends on its
own attribute only, so an attribute that is present is unaffected by the defaults of
the missing ones, and a non-empty value is stored as given. -/
theorem layerOfElement_defaults (e : Element) :
    (e.attrs.lookup "x" = none → (layerOfElement e).x = .num 0) ∧
    (e.attrs.lookup "y" = none → (layerOfElement e).y = .num 0) ∧
    (e.attrs.lookup "opacity" = none → (layerOfElement e).opacity = .num 1) ∧
    (e.attrs.lookup "composite-op" = none →
      (layerOfElement e).composite = .str "svg:src-over") ∧
    (e.attrs.lookup "visibility" = none → (layerOfElement e).visibility = .str "visible") ∧
    (∀ v, v ≠ "" → e.attrs.lookup "x" = some v → (layerOfElement e).x = .str v) ∧
    (∀ v, v ≠ "" → e.attrs.lookup "y" = some v → (layerOfElement e).y = .str v) ∧
    (∀ v, v ≠ "" → e.attrs.lookup "opacity" = some v →
      (layerOfElement e).opacity = .str v) ∧
    (∀ v, v ≠ "" → e.attrs.lookup "composite-op" = some v →
      (layerOfElement e).composite = .str v) ∧
    (∀ v, v ≠ "" → e.attrs.lookup "visibility" = some v →
      (layerOfElement e).visibility = .str v) ∧
    (∀ other : Element,
      (other.attrs.lookup "x" = e.attrs.lookup "x" →
        (layerOfElement other).x = (layerOfElement e).x) ∧
      (other.attrs.lookup "y" = e.attrs.lookup "y" →
        (layerOfElement other).y = (layerOfElement e).y) ∧
      (other.attrs.lookup "opacity" = e.attrs.lookup "opacity" →
        (layerOfElement other).opacity = (layerOfElement e).opacity) ∧
      (other.attrs.lookup "composite-op" = e.attrs.lookup "composite-op" →
        (layerOfElement other).composite = (layerOfElement e).composite) ∧
      (other.attrs.lookup "visibility" = e.attrs.lookup "visibility" →
        (layerOfElement other).visibility = (layerOfElement e).visibility)) := by
  refine ⟨?_, ?_, ?_, ?_, ?_, ?_, ?_, ?_, ?_, ?_, ?_⟩
  · intro h
    simp [layerOfElement, Element.getAttribute, h, jsOr, JSVal.truthy]
  · intro h
    simp [layerOfElement, Element.getAttribute, h, jsOr, JSVal.truthy]
  · intro h
    simp [layerOfElement, Element.getAttribute, h, jsOr, JSVal.truthy]
  · intro h
    simp [layerOfElement, Element.getAttribute, h, jsOr, JSVal.truthy]
  · intro h
    simp [layerOfElement, Element.getAttribute, h, jsOr, JSVal.truthy]
  · intro v hv h
    simp [layerOfElement, Element.getAttribute, h, jsOr, JSVal.truthy, hv]
  · intro v hv h
    simp [layerOfElement, Element.getAttribute, h, jsOr, JSVal.truthy, hv]
  · intro v hv h
    simp [layerOfElement, Element.getAttribute, h, jsOr, JSVal.truthy, hv]
  · intro v hv h
    simp [layerOfElement, Element.getAttribute, h, jsOr, JSVal.truthy, hv]
  · intro v hv h
    simp [layerOfElement, Element.getAttribute, h, jsOr, JSVal.truthy, hv]
  · intro other
    refine ⟨?_, ?_, ?_, ?_, ?_⟩ <;>
      (intro h
       simp only [layerOfElement, Element.getAttribute, h])

/-- C4 (witness): the element B has no `composite-op` and no `visibility` but carries
`x` and `opacity`; its `x` is the one of any element with the same `x` attribute. -/
theorem layerOfElement_defaults_witness :
    (layerOfElement elemB).composite = .str "svg:src-over" ∧
    (layerOfElement elemB).visibility = .str "visible" ∧
    (layerOfElement elemB).x = .str "1" ∧
    (layerOfElement elemB).opacity = .str "0.5" ∧
    (layerOfElement { attrs := [("x", "1")] }).x = (layerOfElement elemB).x :=
  ⟨(layerOfElement_defaults elemB).2.2.2.1 (by decide),
    (layerOfElement_defaults elemB).2.2.2.2.1 (by decide),
    (layerOfElement_defaults elemB).2.2.2.2.2.1 "1" (by decide) (by decide),
    (layerOfElement_defaults elemB).2.2.2.2.2.2.2.1 "0.5" (by decide) (by decide),
    ((layerOfElement_defaults elemB).2.2.2.2.2.2.2.2.2.2 { attrs := [("x", "1")] }).1
      (by decide)⟩

/-- C4 (counterexample): the element A carries no `composite-op` attribute and the
layer built from it has the composite operator `svg:src-over`, not `source-over`. -/
theorem layerOfElement_composite_default_not_source_over :
    elemA.attrs.lookup "composite-op" = none ∧
    (layerOfElement elemA).composite = .str "svg:src-over" ∧
    (layerOfElement elemA).composite ≠ .str "source-over" := by
  decide

/-! ## addLayer -/

theorem splice_insert {α : Type} (xs : List α) (k : Nat) (items : List α)
    (hk : k ≤ xs.length) :
    splice xs (k : Int) 0 items = xs.take k ++ items ++ xs.drop k := by
  unfold splice
  have h1 : ¬ ((k : Int) < 0) := by omega
  have h2 : (min (k : Int) (xs.length : Int)).toNat = k := by omega
  simp only [h1, if_false, h2]
  have h3 : (min (max (0 : Int) 0) ((xs.length : Int) - (k : Int))).toNat = 0 := by omega
  rw [h3]
  rfl

/-- C3: `addLayer(name, index)` returns the new layer `Layer(width, height, name)` and
leaves a list of `N + 1` layers in which the layer stands at position `index` when
`0 <= index < N` and at the end in every other case (index omitted, negative, or at
least `N`), with the `N` previous layers around it in their previous order. -/
theorem addLayer_position (self : OraFile) (name : JSVal) (index : Option Int) :
    (addLayer self name index).1 = Layer.new self.width self.height name ∧
    (addLayer self name index).2.layers.length = self.layers.length + 1 ∧
    (addLayer self name index).2.layers =
      self.layers.take (insertPosition self.layers.length index) ++
        (addLayer self name index).1 ::
          self.layers.drop (insertPosition self.layers.length index) ∧
    (addLayer self name index).2.layers[insertPosition self.layers.length index]? =
      some (addLayer self name index).1 ∧
    (addLayer self name index).2.layers.eraseIdx (insertPosition self.layers.length index) =
      self.layers := by
  have key : (addLayer self name index).1 = Layer.new self.width self.height name ∧
      (addLayer self name index).2.layers =
      self.layers.take (insertPosition self.layers.length index) ++
        (addLayer self name index).1 ::
          self.layers.drop (insertPosition self.layers.length index) := by
    unfold addLayer insertPosition
    cases index with
    | none => simp
    | some i =>
      by_cases h : 0 ≤ i ∧ i < (self.layers.length : Int)
      · have h' : i < (self.layers.length : Int) ∧ i ≥ 0 := ⟨h.2, h.1⟩
        have hk : i.toNat ≤ self.layers.length := by omega
        have hi : ((i.toNat : Nat) : Int) = i := by omega
        have := splice_insert self.layers i.toNat
          [Layer.new self.width self.height name] hk
        rw [hi] at this
        simp [h, h', this]
      · have h' : ¬ (i < (self.layers.length : Int) ∧ i ≥ 0) := fun c => h ⟨c.2, c.1⟩
        simp [h, h']
  have hle : insertPosition self.layers.length index ≤ self.layers.length := by
    unfold insertPosition
    cases index with
    | none => simp
    | some i =>
      simp only []
      split
      · omega
      · exact Nat.le_refl _
  refine ⟨key.1, ?_, key.2, ?_, ?_⟩
  · rw [key.2]
    simp
    omega
  · rw [key.2, List.getElem?_append_right (by simp [hle])]
    simp [hle]
  · rw [key.2, List.eraseIdx_append_of_length_le (by simp [hle])]
    simp [hle]

/-! ## Paint order and visibility -/

theorem layerStep_of_painted (ora : Settings) (self : OraFile) (layer : Layer) (image : Image)
    (hi : layer.image = some image) (hs : layer.shown = true) :
    layerStep ora self layer = paintCalls ora self layer image := by
  unfold layerStep paintCalls blendStep plainStep
  cases ora.blending <;> simp [hi, hs]

theorem layerStep_of_not_painted (ora : Settings) (self : OraFile) (layer : Layer)
    (h : layer.painted = false) : layerStep ora self layer = [] := by
  unfold layerStep blendStep plainStep
  unfold Layer.painted at h
  cases hi : layer.image with
  | none => cases ora.blending <;> rfl
  | some image =>
    have hs : layer.shown = false := by simpa [hi] using h
    cases ora.blending <;> simp [hs]

theorem flatMap_layerStep_filter (ora : Settings) (self : OraFile) (layers : List Layer) :
    (layers.filter Layer.painted).flatMap (layerStep ora self) =
      layers.flatMap (layerStep ora self) := by
  induction layers with
  | nil => rfl
  | cons l ls ih =>
    cases hp : l.painted with
    | true => simp [List.filter_cons, hp, ih]
    | false => simp [List.filter_cons, hp, ih, layerStep_of_not_painted ora self l hp]

theorem layerStep_layers (ora : Settings) (self : OraFile) (layers : List Layer) :
    layerStep ora { self with layers := layers } = layerStep ora self := by
  funext layer
  unfold layerStep blendStep
  rfl

theorem compositeCalls_layers (ora : Settings) (self : OraFile) (layers : List Layer)
    (h : layers.flatMap (layerStep ora self) = self.layers.flatMap (layerStep ora self)) :
    compositeCalls ora { self with layers := layers } = compositeCalls ora self := by
  unfold compositeCalls layerCalls aroundLoop
  simp only [layerStep_layers, h]

/-- C2: when the prerendered image is not used, `drawComposite` runs one iteration per
stored layer, from index 0 to the last, and the calls it makes after `clearRect` are
the iterations' calls in stored order; the layers it paints are those with an image
that pass the visibility test, a subsequence of the stored list in stored order.  This
holds with a blending module (between `getImageData` and `putImageData`) and without
one. -/
theorem drawComposite_stored_order (ora : Settings) (self : OraFile) (canvas : Canvas)
    (h : fastPath ora self = false) :
    (drawComposite ora self canvas).calls =
      canvas.calls ++ .clearRect (.num 0) (.num 0) self.width self.height ::
        aroundLoop ora self (self.layers.flatMap (layerStep ora self)) ∧
    self.layers.flatMap (layerStep ora self) =
      (self.layers.filter Layer.painted).flatMap (layerStep ora self) ∧
    (self.layers.filter Layer.painted).Sublist self.layers ∧
    (∀ layer image, layer.image = some image → layer.shown = true →
      layerStep ora self layer = paintCalls ora self layer image) ∧
    (∀ layer, layer.painted = false → layerStep ora self layer = []) := by
  refine ⟨?_, (flatMap_layerStep_filter ora self self.layers).symm,
    List.filter_sublist _, layerStep_of_painted ora self, layerStep_of_not_painted ora self⟩
  rw [drawComposite_eq, compositeCalls_slow ora self h]
  rfl

/-- C2 (witness): the stack listed A, B, C is stored as C, B, A and painted C, then B,
then A, in the plain canvas branch and in the blending branch. -/
theorem drawComposite_stored_order_witness :
    docABC.layers.map (fun l => l.name) = [.str "C", .str "B", .str "A"] ∧
    (drawComposite plainSettings docABC blankCanvas).calls =
      [.clearRect (.num 0) (.num 0) (.str "4") (.str "4"),
        .globalAlpha (.num 1), .drawImage imgC (.num 0) (.num 0),
        .globalAlpha (.str "0.5"), .drawImage imgB (.str "1") (.str "2"),
        .globalAlpha (.num 1), .drawImage imgA (.num 0) (.num 0)] ∧
    (drawComposite blendSettings docABC blankCanvas).calls =
      [.clearRect (.num 0) (.num 0) (.str "4") (.str "4"),
        .getImageData (.num 0) (.num 0) (.str "4") (.str "4"),
        .blend ⟨imgC, .num 0, .num 0, .str "4", .str "4"⟩ (.num 1) (some 0),
        .blend ⟨imgB, .str "1", .str "2", .str "4", .str "4"⟩ (.str "0.5") (some 0),
        .blend ⟨imgA, .num 0, .num 0, .str "4", .str "4"⟩ (.num 1) (some 0),
        .putImageData (.num 0) (.num 0)] :=
  ⟨by decide,
    (drawComposite_stored_order plainSettings docABC blankCanvas (by decide)).1.trans
      (by decide),
    (drawComposite_stored_order blendSettings docABC blankCanvas (by decide)).1.trans
      (by decide)⟩

/-- C7: a layer whose visibility is the string `hidden` is never painted, whatever its
other fields and whether or not a blending module is installed: its iteration makes no
call, and `drawComposite` gives the same canvas as for the document without that
layer. -/
theorem drawComposite_hidden_layer (ora : Settings) (self : OraFile) (canvas : Canvas)
    (before after : List Layer) (layer : Layer)
    (hl : self.layers = before ++ layer :: after)
    (hv : layer.visibility = .str "hidden") :
    layerStep ora self layer = [] ∧
    drawComposite ora self canvas =
      drawComposite ora { self with layers := before ++ after } canvas := by
  have hp : layer.painted = false := by
    simp [Layer.painted, Layer.shown, hv]
  have hstep := layerStep_of_not_painted ora self layer hp
  refine ⟨hstep, ?_⟩
  have hc := compositeCalls_layers ora self (before ++ after) (by simp [hl, hstep])
  rw [drawComposite_eq, drawComposite_eq, hc]

/-- C7 (witness): a hidden layer with a raster, opacity 0.5 and operator `svg:multiply`
between C and B changes nothing, with and without a blending module. -/
theorem drawComposite_hidden_layer_witness :
    drawComposite blendSettings
        { docABC with layers := docABC.layers.take 1 ++ layerHidden :: docABC.layers.drop 1 }
        blankCanvas =
      drawComposite blendSettings docABC blankCanvas ∧
    drawComposite plainSettings
        { docABC with layers := docABC.layers.take 1 ++ layerHidden :: docABC.layers.drop 1 }
        blankCanvas =
      drawComposite plainSettings docABC blankCanvas :=
  ⟨((drawComposite_hidden_layer blendSettings
      { docABC with layers := docABC.layers.take 1 ++ layerHidden :: docABC.layers.drop 1 }
      blankCanvas (docABC.layers.take 1) (docABC.layers.drop 1) layerHidden rfl
      (by decide)).2).trans (by decide),
    ((drawComposite_hidden_layer plainSettings
      { docABC with layers := docABC.layers.take 1 ++ layerHidden :: docABC.layers.drop 1 }
      blankCanvas (docABC.layers.take 1) (docABC.layers.drop 1) layerHidden rfl
      (by decide)).2).trans (by decide)⟩

/-- C8 (as amended): a layer with a decoded raster is painted, at its place in the
stored order, when its visibility is the string `visible` or is undefined; with any
other visibility value it is not painted and `drawComposite` gives the same canvas as
for the document without that layer. -/
theorem drawComposite_visibility_test (ora : Settings) (self : OraFile) (canvas : Canvas)
    (before after : List Layer) (layer : Layer) (image : Image)
    (hf : fastPath ora self = false)
    (hl : self.layers = before ++ layer :: after)
    (hi : layer.image = some image) :
    ((layer.visibility = .str "visible" ∨ layer.visibility = .undefined) →
      (drawComposite ora self canvas).calls =
        canvas.calls ++ .clearRect (.num 0) (.num 0) self.width self.height ::
          aroundLoop ora self
            (before.flatMap (layerStep ora self) ++ paintCalls ora self layer image ++
              after.flatMap (layerStep ora self))) ∧
    (layer.visibility ≠ .str "visible" → layer.visibility ≠ .undefined →
      drawComposite ora self canvas =
        drawComposite ora { self with layers := before ++ after } canvas) ∧
    paintCalls ora self layer image ≠ [] := by
  refine ⟨?_, ?_, ?_⟩
  · intro hv
    have hs : layer.shown = true := by
      cases hv with
      | inl h => simp [Layer.shown, h]
      | inr h => simp [Layer.shown, h]
    rw [drawComposite_eq, compositeCalls_slow ora self hf]
    simp [layerCalls, hl, layerStep_of_painted ora self layer image hi hs]
  · intro h1 h2
    have hp : layer.painted = false := by
      simp [Layer.painted, Layer.shown, h1, h2]
    have hstep := layerStep_of_not_painted ora self layer hp
    have hc := compositeCalls_layers ora self (before ++ after) (by simp [hl, hstep])
    rw [drawComposite_eq, drawComposite_eq, hc]
  · unfold paintCalls
    cases ora.blending <;> simp

/-- C8 (witness): the layer B of the stack A, B, C is visible and is painted between C
and A. -/
theorem drawComposite_visibility_test_witness :
    (drawComposite plainSettings docABC blankCanvas).calls =
      [.clearRect (.num 0) (.num 0) (.str "4") (.str "4"),
        .globalAlpha (.num 1), .drawImage imgC (.num 0) (.num 0),
        .globalAlpha (.str "0.5"), .drawImage imgB (.str "1") (.str "2"),
        .globalAlpha (.num 1), .drawImage imgA (.num 0) (.num 0)] :=
  ((drawComposite_visibility_test plainSettings docABC blankCanvas
    (docABC.layers.take 1) (docABC.layers.drop 2)
    { layerOfElement elemB with image := some imgB, width := .num 4, height := .num 4 }
    imgB (by decide) (by decide) rfl).1 (Or.inl (by decide))).trans (by decide)

/-- C8 (counterexample): a layer with a decoded raster whose visibility is the string
`other`, which is not `hidden`, is not painted: without the prerendered image,
`drawComposite` only clears the canvas, and with a blending module it only reads and
writes back the cleared pixels. -/
theorem drawComposite_other_visibility_not_painted :
    docOther.layers.map (fun l => (l.image, l.visibility)) =
      [(some imgA, .str "other")] ∧
    fastPath plainSettings docOther = false ∧
    fastPath blendSettings docOther = false ∧
    (drawComposite plainSettings docOther blankCanvas).calls =
      [.clearRect (.num 0) (.num 0) (.str "4") (.str "4")] ∧
    (drawComposite blendSettings docOther blankCanvas).calls =
      [.clearRect (.num 0) (.num 0) (.str "4") (.str "4"),
        .getImageData (.num 0) (.num 0) (.str "4") (.str "4"),
        .putImageData (.num 0) (.num 0)] := by
  decide

/-! ## Blend mode lookup -/

/-- C9 (as amended): with a blending module, a layer whose composite operator is not a
property of the module gets the module's `normal` function, and when the module also
resolves the name `source-over` to its `normal` function, `drawComposite` gives the
same canvas as for the same layer with the composite operator `source-over`. -/
theorem drawComposite_unknown_composite (ora : Settings) (blending : Blending)
    (self : OraFile) (canvas : Canvas) (before after : List Layer) (layer : Layer)
    (hb : ora.blending = some blending)
    (hl : self.layers = before ++ layer :: after)
    (hu : blending.get layer.composite.toPropertyKey = none)
    (hso : resolveFilter blending (.str "source-over") = blending.get "normal") :
    resolveFilter blending layer.composite = blending.get "normal" ∧
    drawComposite ora self canvas =
      drawComposite ora
        { self with
          layers := before ++ { layer with composite := .str "source-over" } :: after }
        canvas := by
  have hr : resolveFilter blending layer.composite = blending.get "normal" := by
    simp [resolveFilter, hu]
  refine ⟨hr, ?_⟩
  have hstep : layerStep ora self { layer with composite := .str "source-over" } =
      layerStep ora self layer := by
    simp only [layerStep, hb, blendStep, Layer.shown, Layer.getImageData, hr, hso]
  have hc := compositeCalls_layers ora self
    (before ++ { layer with composite := .str "source-over" } :: after)
    (by simp [hl, hstep])
  rw [drawComposite_eq, drawComposite_eq, hc]

/-- C9 (witness): with the modes `normal` and `svg:multiply`, the operator `bogus`
resolves to `normal` and renders as `source-over` does. -/
theorem drawComposite_unknown_composite_witness :
    resolveFilter sampleBlending (.str "bogus") = some 0 ∧
    drawComposite blendSettings { docABC with layers := [layerBogus] } blankCanvas =
      drawComposite blendSettings
        { docABC with layers := [{ layerBogus with composite := .str "source-over" }] }
        blankCanvas :=
  ⟨(drawComposite_unknown_composite blendSettings sampleBlending
      { docABC with layers := [layerBogus] } blankCanvas [] [] layerBogus rfl rfl
      (by decide) (by decide)).1.trans (by decide),
    (drawComposite_unknown_composite blendSettings sampleBlending
      { docABC with layers := [layerBogus] } blankCanvas [] [] layerBogus rfl rfl
      (by decide) (by decide)).2⟩

/-- C9 (counterexample): in a blending module that binds `source-over` to a function
other than `normal`, the operator `bogus` is not a property, yet the layer does not
render as it does with the operator `source-over`. -/
theorem drawComposite_unknown_composite_differs :
    oddBlending.get "bogus" = none ∧
    layerBogus.composite = .str "bogus" ∧
    drawComposite oddSettings { docABC with layers := [layerBogus] } blankCanvas ≠
      drawComposite oddSettings
        { docABC with layers := [{ layerBogus with composite := .str "source-over" }] }
        blankCanvas := by
  decide

/-- The lookup `blending[layer.composite]` finds every property of the module, not
only its blend modes: the operator name `blend` resolves to the function
`blending.blend` itself (here number 9), not to `normal` (number 0). -/
theorem resolveFilter_finds_blend_function :
    resolveFilter sampleBlending (.str "blend") = some 9 ∧
    sampleBlending.get "normal" = some 0 := by
  decide

/-! ## The prerendered image -/

/-- C10 (as amended): with the flag set and a prerendered raster present,
`drawComposite` sizes the canvas to the width and height of the document, clears it and
draws that raster once at the origin; it reads no layer, so the result does not depend
on the layer list; the canvas has the size of the raster when the document has.  With
the flag unset or no raster, it takes the layer-by-layer path. -/
theorem drawComposite_prerendered (ora : Settings) (self : OraFile) (canvas : Canvas) :
    (∀ prerendered, ora.enablePrerendered = true → self.prerendered = some prerendered →
      (drawComposite ora self canvas).width = self.width ∧
      (drawComposite ora self canvas).height = self.height ∧
      (drawComposite ora self canvas).calls =
        canvas.calls ++ [.clearRect (.num 0) (.num 0) self.width self.height,
          .drawImage prerendered (.num 0) (.num 0)] ∧
      (∀ layers, drawComposite ora { self with layers := layers } canvas =
        drawComposite ora self canvas) ∧
      (canvasSize self.width = some prerendered.width →
        canvasSize self.height = some prerendered.height →
        canvasSize (drawComposite ora self canvas).width = some prerendered.width ∧
        canvasSize (drawComposite ora self canvas).height = some prerendered.height)) ∧
    (ora.enablePrerendered = false ∨ self.prerendered = none →
      (drawComposite ora self canvas).calls =
        canvas.calls ++ .clearRect (.num 0) (.num 0) self.width self.height ::
          layerCalls ora self self.layers) := by
  constructor
  · intro prerendered he hp
    have hcalls : ∀ layers, compositeCalls ora { self with layers := layers } =
        [.clearRect (.num 0) (.num 0) self.width self.height,
          .drawImage prerendered (.num 0) (.num 0)] := by
      intro layers
      simp [compositeCalls, he, hp]
    have hself : compositeCalls ora self =
        [.clearRect (.num 0) (.num 0) self.width self.height,
          .drawImage prerendered (.num 0) (.num 0)] := hcalls self.layers
    refine ⟨by rw [drawComposite_eq], by rw [drawComposite_eq], ?_, ?_, ?_⟩
    · rw [drawComposite_eq, hself]
    · intro layers
      rw [drawComposite_eq, drawComposite_eq, hcalls, hself]
    · intro hw hh
      rw [drawComposite_eq]
      exact ⟨hw, hh⟩
  · intro h
    have hf : fastPath ora self = false := by
      cases h with
      | inl h => simp [fastPath, h]
      | inr h => simp [fastPath, h]
    rw [drawComposite_eq, compositeCalls_slow ora self hf]

/-- C10 (witness): a 2 x 2 document with a 2 x 2 merged image is rendered as that image
on a 2 x 2 canvas; with the flag unset its layer is painted instead. -/
theorem drawComposite_prerendered_witness :
    (drawComposite defaultSettings docMerged blankCanvas).calls =
      [.clearRect (.num 0) (.num 0) (.str "2") (.str "2"),
        .drawImage imgMerged (.num 0) (.num 0)] ∧
    canvasSize (drawComposite defaultSettings docMerged blankCanvas).width = some 2 ∧
    canvasSize (drawComposite defaultSettings docMerged blankCanvas).height = some 2 ∧
    (drawComposite plainSettings docMerged blankCanvas).calls =
      [.clearRect (.num 0) (.num 0) (.str "2") (.str "2"),
        .globalAlpha (.num 1), .drawImage imgA (.num 0) (.num 0)] :=
  ⟨((drawComposite_prerendered defaultSettings docMerged blankCanvas).1 imgMerged rfl
      (by decide)).2.2.1.trans (by decide),
    (((drawComposite_prerendered defaultSettings docMerged blankCanvas).1 imgMerged rfl
      (by decide)).2.2.2.2 (by decide) (by decide)).1,
    (((drawComposite_prerendered defaultSettings docMerged blankCanvas).1 imgMerged rfl
      (by decide)).2.2.2.2 (by decide) (by decide)).2,
    ((drawComposite_prerendered plainSettings docMerged blankCanvas).2
      (Or.inl rfl)).trans (by decide)⟩

/-- C10 (counterexample): for a document declared 1 x 1 whose merged image is 2 x 2,
`drawComposite` with the flag set leaves a 1 x 1 canvas, not one of the size of the
raster. -/
theorem drawComposite_prerendered_size_differs :
    defaultSettings.enablePrerendered = true ∧
    docSmall.prerendered = some imgMerged ∧
    canvasSize (drawComposite defaultSettings docSmall blankCanvas).width = some 1 ∧
    canvasSize (drawComposite defaultSettings docSmall blankCanvas).height = some 1 ∧
    canvasSize (drawComposite defaultSettings docSmall blankCanvas).width ≠
      some imgMerged.width ∧
    canvasSize (drawComposite defaultSettings docSmall blankCanvas).height ≠
      some imgMerged.height := by
  decide

/-! ## The loading protocol -/

theorem countP_eraseIdx_add {α : Type} (p : α → Bool) :
    ∀ (l : List α) (k : Nat) (t : α), l[k]? = some t →
      (l.eraseIdx k).countP p + (if p t then 1 else 0) = l.countP p := by
  intro l
  induction l with
  | nil => intro k t h; simp at h
  | cons a as ih =>
    intro k t h
    cases k with
    | zero =>
      simp at h
      subst h
      simp [List.countP_cons]
    | succ k =>
      simp at h
      have := ih k t h
      simp only [List.eraseIdx_cons_succ, List.countP_cons]
      omega

theorem onDone_eq (st : LoadState) :
    onDone st =
      { st with
        stepsDone := st.stepsDone + 1
        onloadCalls := if st.stepsDone + 1 = st.steps then st.onloadCalls + 1
          else st.onloadCalls } := by
  unfold onDone
  simp only []
  split <;> rfl

theorem loadLayersLoop_counts (fs : ZipFS) (layerElems : List Element) :
    ∀ (n : Nat) (st : LoadState), n ≤ layerElems.length →
      (loadLayersLoop fs layerElems n st).stepsDone = st.stepsDone ∧
      (loadLayersLoop fs layerElems n st).steps = st.steps ∧
      (loadLayersLoop fs layerElems n st).layersLoaded = st.layersLoaded ∧
      (loadLayersLoop fs layerElems n st).layerCount = st.layerCount ∧
      (loadLayersLoop fs layerElems n st).onloadCalls = st.onloadCalls ∧
      (loadLayersLoop fs layerElems n st).pending.countP Task.isAsset =
        st.pending.countP Task.isAsset ∧
      (loadLayersLoop fs layerElems n st).pending.countP Task.isText =
        st.pending.countP Task.isText ∧
      (loadLayersLoop fs layerElems n st).pending.countP Task.isLayer =
        st.pending.countP Task.isLayer + foundLayers fs (layerElems.take n) := by
  intro n
  induction n with
  | zero => intro st _; simp [loadLayersLoop, foundLayers]
  | succ i ih =>
    intro st hn
    have hi : i < layerElems.length := hn
    rw [loadLayersLoop, List.getElem?_eq_getElem hi]
    simp only []
    obtain ⟨h1, h2, h3, h4, h5, h6, h7, h8⟩ := ih
      { extractImage (layerElems[i].getAttribute "src") fs
          (.onExtract st.that.layers.length) false st with
        that := { (extractImage (layerElems[i].getAttribute "src") fs
          (.onExtract st.that.layers.length) false st).that with
          layers := (extractImage (layerElems[i].getAttribute "src") fs
            (.onExtract st.that.layers.length) false st).that.layers ++
              [layerOfElement layerElems[i]] } } (Nat.le_of_lt hi)
    rw [h1, h2, h3, h4, h5, h6, h7, h8]
    have ht : foundLayers fs (layerElems.take (i + 1)) =
        foundLayers fs (layerElems.take i) +
          (if (fs.find (layerElems[i].getAttribute "src")).isSome then 1 else 0) := by
      unfold foundLayers
      rw [List.take_succ, List.getElem?_eq_getElem hi]
      simp only [Option.toList, List.countP_append, List.countP_cons, List.countP_nil,
        Nat.zero_add]
    rw [ht]
    unfold extractImage
    cases hf : fs.find (layerElems[i].getAttribute "src") with
    | none => simp
    | some img => simp [Task.isAsset, Task.isText, Task.isLayer, List.countP_cons]; omega

theorem onStackText_counts (fs : ZipFS) (st : LoadState) :
    (onStackText fs st).stepsDone = st.stepsDone ∧
    (onStackText fs st).steps = st.steps ∧
    (onStackText fs st).layersLoaded = 0 ∧
    (onStackText fs st).layerCount = fs.stack.layerElems.length ∧
    (onStackText fs st).onloadCalls = st.onloadCalls ∧
    (onStackText fs st).pending.countP Task.isAsset = st.pending.countP Task.isAsset ∧
    (onStackText fs st).pending.countP Task.isText = st.pending.countP Task.isText ∧
    (onStackText fs st).pending.countP Task.isLayer =
      st.pending.countP Task.isLayer + foundLayers fs fs.stack.layerElems := by
  unfold onStackText loadLayers
  simp only []
  have h := loadLayersLoop_counts fs fs.stack.layerElems fs.stack.layerElems.length
    { that := { width := fs.stack.image.getAttribute "w",
                height := fs.stack.image.getAttribute "h",
                layers := [], thumbnail := st.that.thumbnail,
                prerendered := st.that.prerendered },
      stepsDone := st.stepsDone, steps := st.steps, layersLoaded := 0,
      layerCount := fs.stack.layerElems.length, pending := st.pending,
      onloadCalls := st.onloadCalls } (Nat.le_refl _)
  rw [List.take_length] at h
  exact h

theorem fire_stuck (fs : ZipFS)
    (hfs : foundLayers fs fs.stack.layerElems = 0 ∨
      foundLayers fs fs.stack.layerElems < fs.stack.layerElems.length)
    (st : LoadState) (k : Nat) (h : Stuck st) : Stuck (fire fs st k) := by
  unfold fire
  cases hk : st.pending[k]? with
  | none => exact h
  | some t =>
    simp only []
    have ea := countP_eraseIdx_add Task.isAsset st.pending k t hk
    have el := countP_eraseIdx_add Task.isLayer st.pending k t hk
    have et := countP_eraseIdx_add Task.isText st.pending k t hk
    obtain ⟨hc, hs, ha, ht, hl⟩ := h
    cases t with
    | getText =>
      simp only [Task.isAsset, Task.isLayer, Task.isText, if_true, if_false,
        Bool.false_eq_true, Nat.add_zero] at ea el et
      obtain ⟨c1, c2, c3, c4, c5, c6, c7, c8⟩ :=
        onStackText_counts fs { st with pending := st.pending.eraseIdx k }
      simp only [] at c1 c2 c3 c4 c5 c6 c7 c8
      unfold runTask
      simp only []
      constructor
      · omega
      · omega
      · omega
      · omega
      · rw [c7, c8, c3, c4]
        omega
    | decode img cb =>
      cases cb with
      | thumbnail =>
        simp only [Task.isAsset, Task.isLayer, Task.isText, if_true, if_false,
        Bool.false_eq_true, Nat.add_zero] at ea el et
        unfold runTask
        simp only [onDone_eq]
        have hne : ¬ (st.stepsDone + 1 = st.steps) := by omega
        constructor <;> simp only [hne, if_false] <;> omega
      | merged =>
        simp only [Task.isAsset, Task.isLayer, Task.isText, if_true, if_false,
        Bool.false_eq_true, Nat.add_zero] at ea el et
        unfold runTask
        simp only [onDone_eq]
        have hne : ¬ (st.stepsDone + 1 = st.steps) := by omega
        constructor <;> simp only [hne, if_false] <;> omega
      | onExtract pos =>
        simp only [Task.isAsset, Task.isLayer, Task.isText, if_true, if_false,
        Bool.false_eq_true, Nat.add_zero] at ea el et
        unfold runTask onExtract
        have hne : ¬ (st.layersLoaded + 1 = st.layerCount) := by omega
        simp only [hne, if_false]
        constructor <;> simp only [] <;> omega

theorem loadOra_counts (fs : ZipFS) (that : OraFile) :
    (loadOra fs that).onloadCalls = 0 ∧
    (loadOra fs that).steps = 3 ∧
    (loadOra fs that).stepsDone + (loadOra fs that).pending.countP Task.isAsset = 2 ∧
    (loadOra fs that).pending.countP Task.isText = 1 ∧
    (loadOra fs that).pending.countP Task.isLayer = 0 := by
  unfold loadOra extractImage
  cases fs.find (.str "Thumbnails/thumbnail.png") <;>
    cases fs.find (.str "mergedimage.png") <;>
    simp [onDone_eq, Task.isAsset, Task.isText, Task.isLayer, List.countP_cons]

theorem loadFile_stuck (fs : ZipFS) : Stuck (loadFile fs) := by
  obtain ⟨h1, h2, h3, h4, h5⟩ := loadOra_counts fs (OraFile.new .undefined .undefined)
  unfold loadFile
  exact ⟨h1, h2, by omega, by omega, Or.inl h5⟩

theorem runSchedule_stuck (fs : ZipFS)
    (hfs : foundLayers fs fs.stack.layerElems = 0 ∨
      foundLayers fs fs.stack.layerElems < fs.stack.layerElems.length)
    (sched : List Nat) : ∀ st, Stuck st → Stuck (runSchedule fs st sched) := by
  induction sched with
  | nil => intro st h; exact h
  | cons k ks ih =>
    intro st h
    exact ih (fire fs st k) (fire_stuck fs hfs st k h)

/-- An archive whose stack is empty, or in which some layer raster has no entry, never
completes its load: whatever the order in which the tasks complete, `onload` is not
called. -/
theorem load_never_completes (fs : ZipFS)
    (hfs : foundLayers fs fs.stack.layerElems = 0 ∨
      foundLayers fs fs.stack.layerElems < fs.stack.layerElems.length)
    (sched : List Nat) : (runSchedule fs (loadFile fs) sched).onloadCalls = 0 :=
  (runSchedule_stuck fs hfs sched (loadFile fs) (loadFile_stuck fs)).calls

/-- C5 (failing input): for the archive with an empty stack, a thumbnail and a merged
image, `onload` is never called, whatever the order in which the tasks complete; after
the three tasks have completed nothing is outstanding, both rasters are stored, and
`onload` has still not been called. -/
theorem load_empty_stack_never_calls_onload :
    fsEmpty.stack.layerElems.length = 0 ∧
    (∀ sched, (runSchedule fsEmpty (loadFile fsEmpty) sched).onloadCalls = 0) ∧
    (runSchedule fsEmpty (loadFile fsEmpty) [0, 0, 0]).pending = [] ∧
    (runSchedule fsEmpty (loadFile fsEmpty) [0, 0, 0]).stepsDone = 2 ∧
    (runSchedule fsEmpty (loadFile fsEmpty) [0, 0, 0]).that.thumbnail = some imgThumb ∧
    (runSchedule fsEmpty (loadFile fsEmpty) [0, 0, 0]).that.prerendered = some imgMerged ∧
    (runSchedule fsEmpty (loadFile fsEmpty) [0, 0, 0]).onloadCalls = 0 :=
  ⟨by decide, fun sched => load_never_completes fsEmpty (Or.inl (by decide)) sched,
    by decide, by decide, by decide, by decide, by decide⟩

/-- C6 (failing input): for the archive whose layer B names a raster that has no entry,
`onload` is never called, whatever the order in which the tasks complete; once nothing
is outstanding, B is stored before A with its parsed name, offset, operator, opacity
and visibility and without image, `drawComposite` paints A only, and `onload` has
still not been called. -/
theorem load_missing_raster_never_calls_onload :
    fsMissing.find (elemB.getAttribute "src") = none ∧
    (∀ sched, (runSchedule fsMissing (loadFile fsMissing) sched).onloadCalls = 0) ∧
    (runSchedule fsMissing (loadFile fsMissing) [0, 0]).pending = [] ∧
    (runSchedule fsMissing (loadFile fsMissing) [0, 0]).onloadCalls = 0 ∧
    (runSchedule fsMissing (loadFile fsMissing) [0, 0]).that.layers =
      [layerOfElement elemB,
        { layerOfElement elemA with image := some imgA, width := .num 4, height := .num 4 }] ∧
    (layerOfElement elemB).image = none ∧
    (drawComposite plainSettings (runSchedule fsMissing (loadFile fsMissing) [0, 0]).that
        blankCanvas).calls =
      [.clearRect (.num 0) (.num 0) (.str "4") (.str "4"),
        .globalAlpha (.num 1), .drawImage imgA (.num 0) (.num 0)] :=
  ⟨by decide, fun sched => load_never_completes fsMissing (Or.inr (by decide)) sched,
    by decide, by decide, by decide, by decide, by decide⟩

theorem fire_progress (fs : ZipFS)
    (hfs : 0 < fs.stack.layerElems.length ∧
      foundLayers fs fs.stack.layerElems = fs.stack.layerElems.length)
    (st : LoadState) (k : Nat) (h : Progress st) : Progress (fire fs st k) := by
  unfold fire
  cases hk : st.pending[k]? with
  | none => exact h
  | some t =>
    simp only []
    have ea := countP_eraseIdx_add Task.isAsset st.pending k t hk
    have el := countP_eraseIdx_add Task.isLayer st.pending k t hk
    have et := countP_eraseIdx_add Task.isText st.pending k t hk
    obtain ⟨hs, ht, hb, haf, hd, hc⟩ := h
    cases t with
    | getText =>
      simp only [Task.isAsset, Task.isLayer, Task.isText, if_true, if_false,
        Bool.false_eq_true, Nat.add_zero] at ea el et
      obtain ⟨c1, c2, c3, c4, c5, c6, c7, c8⟩ :=
        onStackText_counts fs { st with pending := st.pending.eraseIdx k }
      simp only [] at c1 c2 c3 c4 c5 c6 c7 c8
      have htxt : st.pending.countP Task.isText = 1 := by omega
      have hlay := hb htxt
      unfold runTask
      simp only []
      refine ⟨by omega, by omega, by omega, ?_, ?_, ?_⟩
      · intro _
        rw [c3, c4, c8]
        omega
      · rw [c1, c6, c7, c8]
        omega
      · rw [c5, c1]
        exact hc
    | decode img cb =>
      cases cb with
      | thumbnail =>
        simp only [Task.isAsset, Task.isLayer, Task.isText, if_true, if_false,
          Bool.false_eq_true, Nat.add_zero] at ea el et
        unfold runTask
        simp only [onDone_eq]
        by_cases hfin : st.stepsDone + 1 = st.steps
        · simp only [hfin, if_true]
          refine ⟨?_, ?_, ?_, ?_, ?_, ?_⟩ <;> dsimp only
          · omega
          · omega
          · intro h1
            have := hb (by omega)
            omega
          · intro h1
            have := haf (by omega)
            omega
          · omega
          · omega
        · simp only [hfin, if_false]
          refine ⟨?_, ?_, ?_, ?_, ?_, ?_⟩ <;> dsimp only
          · exact hs
          · omega
          · intro h1
            have := hb (by omega)
            omega
          · intro h1
            have := haf (by omega)
            omega
          · omega
          · omega
      | merged =>
        simp only [Task.isAsset, Task.isLayer, Task.isText, if_true, if_false,
          Bool.false_eq_true, Nat.add_zero] at ea el et
        unfold runTask
        simp only [onDone_eq]
        by_cases hfin : st.stepsDone + 1 = st.steps
        · simp only [hfin, if_true]
          refine ⟨?_, ?_, ?_, ?_, ?_, ?_⟩ <;> dsimp only
          · omega
          · omega
          · intro h1
            have := hb (by omega)
            omega
          · intro h1
            have := haf (by omega)
            omega
          · omega
          · omega
        · simp only [hfin, if_false]
          refine ⟨?_, ?_, ?_, ?_, ?_, ?_⟩ <;> dsimp only
          · exact hs
          · omega
          · intro h1
            have := hb (by omega)
            omega
          · intro h1
            have := haf (by omega)
            omega
          · omega
          · omega
      | onExtract pos =>
        simp only [Task.isAsset, Task.isLayer, Task.isText, if_true, if_false,
          Bool.false_eq_true, Nat.add_zero] at ea el et
        have htxt : st.pending.countP Task.isText = 0 := by
          by_contra hne
          have := hb (by omega)
          omega
        obtain ⟨hsum, hpos⟩ := haf htxt
        unfold runTask onExtract
        simp only []
        by_cases hlast : st.layersLoaded + 1 = st.layerCount
        · simp only [hlast, if_true, onDone_eq]
          by_cases hfin : st.stepsDone + 1 = st.steps
          · simp only [hfin, if_true]
            refine ⟨?_, ?_, ?_, ?_, ?_, ?_⟩ <;> dsimp only <;> omega
          · simp only [hfin, if_false]
            refine ⟨?_, ?_, ?_, ?_, ?_, ?_⟩ <;> dsimp only <;> omega
        · simp only [hlast, if_false]
          refine ⟨?_, ?_, ?_, ?_, ?_, ?_⟩ <;> dsimp only <;> omega

theorem loadFile_progress (fs : ZipFS) : Progress (loadFile fs) := by
  obtain ⟨h1, h2, h3, h4, h5⟩ := loadOra_counts fs (OraFile.new .undefined .undefined)
  unfold loadFile
  exact ⟨h2, by omega, fun _ => h5, fun h => by omega, Or.inr ⟨by omega, h3⟩,
    Or.inr ⟨by omega, h1⟩⟩

theorem runSchedule_progress (fs : ZipFS)
    (hfs : 0 < fs.stack.layerElems.length ∧
      foundLayers fs fs.stack.layerElems = fs.stack.layerElems.length)
    (sched : List Nat) : ∀ st, Progress st → Progress (runSchedule fs st sched) := by
  induction sched with
  | nil => intro st h; exact h
  | cons k ks ih =>
    intro st h
    exact ih (fire fs st k) (fire_progress fs hfs st k h)

theorem task_kinds (pending : List Task) :
    pending.countP Task.isAsset + pending.countP Task.isLayer +
      pending.countP Task.isText = pending.length := by
  induction pending with
  | nil => rfl
  | cons t ts ih =>
    simp only [List.countP_cons, List.length_cons]
    cases t with
    | getText =>
      simp only [Task.isAsset, Task.isLayer, Task.isText, if_true, if_false,
        Bool.false_eq_true]
      omega
    | decode img cb =>
      cases cb <;>
        simp only [Task.isAsset, Task.isLayer, Task.isText, if_true, if_false,
          Bool.false_eq_true] <;> omega

/-- An archive with at least one layer, all of whose layer rasters have an entry,
completes its load exactly once and only at the end: whatever the order in which the
tasks complete, `onload` has been called once when nothing is outstanding and has not
been called while a task is outstanding. -/
theorem load_completes_once (fs : ZipFS)
    (hfs : 0 < fs.stack.layerElems.length ∧
      foundLayers fs fs.stack.layerElems = fs.stack.layerElems.length)
    (sched : List Nat) :
    ((runSchedule fs (loadFile fs) sched).pending = [] →
      (runSchedule fs (loadFile fs) sched).onloadCalls = 1) ∧
    ((runSchedule fs (loadFile fs) sched).pending ≠ [] →
      (runSchedule fs (loadFile fs) sched).onloadCalls = 0) := by
  obtain ⟨hs, ht, hb, haf, hd, hc⟩ :=
    runSchedule_progress fs hfs sched (loadFile fs) (loadFile_progress fs)
  have hk := task_kinds (runSchedule fs (loadFile fs) sched).pending
  constructor
  · intro hp
    rw [hp] at hk hd
    simp only [List.countP_nil, List.length_nil] at hk hd
    omega
  · intro hp
    have hlen : 0 < (runSchedule fs (loadFile fs) sched).pending.length :=
      List.length_pos.mpr hp
    omega

/-- The archive with the layers A, B, C completes its load exactly once, at the end. -/
theorem load_completes_once_witness :
    (runSchedule fsABC (loadFile fsABC) [0, 2, 0, 0]).pending = [] ∧
    (runSchedule fsABC (loadFile fsABC) [0, 2, 0, 0]).onloadCalls = 1 ∧
    (runSchedule fsABC (loadFile fsABC) [0, 2, 0]).onloadCalls = 0 :=
  ⟨by decide,
    (load_completes_once fsABC ⟨by decide, by decide⟩ [0, 2, 0, 0]).1 (by decide),
    (load_completes_once fsABC ⟨by decide, by decide⟩ [0, 2, 0]).2 (by decide)⟩

end Ora
